import Mathlib

/-!
Verification development for the `fast_gliner` repository.

The repository ships a thin Python wrapper (`FastGLiNER` in
`src/bindings/python/py_src/fast_gliner/__init__.py`) around a native core
(`PyFastGliNER` / `PyRelationSchemaEntry`) whose sources are not part of the
checked-in tree.  The wrapper is embedded here directly from the Python source;
the native inference/decoding core is modelled from the specification
(tokenizer/encoder, span candidate generator, entity decoder, relation decoder,
batch orchestrator).  Scores are modelled as rationals, texts as lists of
characters, and Python exceptions as `Except` errors.
-/

/-- Score values (the code's floating-point probabilities) are modelled as
rationals so that all comparisons are exact and decidable. -/
abbrev Score := Rat

/-- A candidate entity boundary in token-index space: the half-open token
range `[start_token, end_token)`. -/
structure TokenSpan where
  start_token : Nat
  end_token : Nat
deriving DecidableEq, Repr

/-- Token width of a span. -/
def TokenSpan.width (s : TokenSpan) : Nat := s.end_token - s.start_token

/-- Modelled from the spec: the Span Candidate Generator of the native core
(not under `src/`).  It produces every span `(i, i+w)` with `0 <= i`,
`1 <= w <= max_span_width`, `i + w <= token_count`, ordered by start index
ascending then width ascending. -/
def generateSpans (token_count max_span_width : Nat) : List TokenSpan :=
  (List.range token_count).flatMap (fun i =>
    (List.range max_span_width).filterMap (fun w0 =>
      if i + (w0 + 1) ≤ token_count then some ⟨i, i + (w0 + 1)⟩ else none))

/-- A decoded entity: matched text, label string, calibrated score and
character offsets into the original input text. -/
structure EntityPrediction where
  text : List Char
  label : String
  score : Score
  start_char : Nat
  end_char : Nat
deriving DecidableEq, Repr

/-- Output of the tokenizer/encoder for one input text: the number of text
tokens, the token-to-character offset table (one `(char_start, char_end)` pair
per token) and whether deterministic truncation occurred. -/
structure EncodedInput where
  tokenCount : Nat
  offsets : List (Nat × Nat)
  truncated : Bool

/-- A scored `(span, label)` candidate prior to offset mapping. -/
structure Candidate where
  span : TokenSpan
  labelIdx : Nat
  score : Score
deriving DecidableEq, Repr

/-- Internal invariant violation of the decoder (an index outside range). -/
inductive DecodeError where
  | indexOutOfRange : String → DecodeError
deriving DecidableEq, Repr

/-- Candidate order used by the entity decoder: score descending, then span
start ascending, then span width ascending. -/
def candLE (a b : Candidate) : Bool :=
  if a.score == b.score then
    if a.span.start_token == b.span.start_token then
      decide (a.span.width ≤ b.span.width)
    else decide (a.span.start_token < b.span.start_token)
  else decide (b.score < a.score)

/-- Insert into a list sorted by `le`. -/
def insertBy (le : α → α → Bool) (a : α) : List α → List α
  | [] => [a]
  | b :: bs => if le a b then a :: b :: bs else b :: insertBy le a bs

/-- Sort a list by `le` (insertion sort; the deterministic order is what the
decoders rely on, per the spec). -/
def sortBy (le : α → α → Bool) : List α → List α
  | [] => []
  | a :: as => insertBy le a (sortBy le as)

/-- Map each element through a fallible function, stopping at the first
error (the decoder treats any index violation as fatal). -/
def mapOrErr (f : α → Except ε β) : List α → Except ε (List β)
  | [] => .ok []
  | a :: as =>
    match f a with
    | .error e => .error e
    | .ok b =>
      match mapOrErr f as with
      | .error e => .error e
      | .ok bs => .ok (b :: bs)

/-- Map an accepted candidate through the offset table to character
positions, copy the label text from the label list by index, and slice the
matched text; an index outside range is a `DecodeError`. -/
def mapCandidate (text : List Char) (labels : List String)
    (offsets : List (Nat × Nat)) (c : Candidate) :
    Except DecodeError EntityPrediction :=
  match labels[c.labelIdx]?, offsets[c.span.start_token]?,
      offsets[c.span.end_token - 1]? with
  | some lab, some so, some eo =>
    .ok ⟨(text.drop so.1).take (eo.2 - so.1), lab, c.score, so.1, eo.2⟩
  | _, _, _ => .error (.indexOutOfRange "span or label index outside range")

/-- Character-range overlap test between two decoded entities. -/
def charOverlapB (a b : EntityPrediction) : Bool :=
  decide (a.start_char < b.end_char) && decide (b.start_char < a.end_char)

/-- Greedy selection over sorted candidates: a candidate is accepted unless it
character-overlaps a previously accepted entity (the default strict
non-overlap policy).  `acc` holds accepted entities in reverse order. -/
def greedySelect (acc : List EntityPrediction) :
    List EntityPrediction → List EntityPrediction
  | [] => acc.reverse
  | c :: rest =>
    if acc.any (fun e => charOverlapB e c) then greedySelect acc rest
    else greedySelect (c :: acc) rest

/-- Modelled from the spec: the candidate stage of the Entity Decoder of the
native core (not under `src/`).  For each `(span, label)` pair the raw
runtime activation is a score; candidates below the threshold are dropped and
the rest are sorted (score descending, start ascending, width ascending). -/
def decodeCands (raw : TokenSpan → Nat → Score) (spans : List TokenSpan)
    (labels : List String) (threshold : Score) : List Candidate :=
  sortBy candLE ((spans.flatMap (fun sp =>
    (List.range labels.length).map (fun li => Candidate.mk sp li (raw sp li)))).filter
    (fun c => decide (threshold ≤ c.score)))

/-- Modelled from the spec: the Entity Decoder of the native core (not under
`src/`): map the thresholded, sorted candidates through the offset table to
character positions and greedily select under the strict non-overlap
policy. -/
def entityDecode (text : List Char) (raw : TokenSpan → Nat → Score)
    (spans : List TokenSpan) (labels : List String)
    (offsets : List (Nat × Nat)) (threshold : Score) :
    Except DecodeError (List EntityPrediction) :=
  match mapOrErr (mapCandidate text labels offsets)
      (decodeCands raw spans labels threshold) with
  | .error e => .error e
  | .ok mapped => .ok (greedySelect [] mapped)

/-- Model hyperparameters read from `gliner_config.json` (max span width,
score thresholds) plus the orchestrator's max batch size. -/
structure GlinerConfig where
  maxSpanWidth : Nat
  threshold : Score
  relThreshold : Score
  maxBatchSize : Nat

/-- Modelled from the spec: the loaded native core (not under `src/`),
abstracted over the learned parts — the tokenizer/encoder and the raw score
tensors produced by the runtime forward pass.  `raw` gives the activation for
a `(span, label-index)` pair; `relRaw` gives the pairwise relation activation
for a (subject, object, relation-name) triple. -/
structure CoreModel where
  cfg : GlinerConfig
  encode : List Char → List String → EncodedInput
  raw : EncodedInput → TokenSpan → Nat → Score
  relRaw : EncodedInput → EntityPrediction → EntityPrediction → String → Score

/-- Modelled from the spec: the per-item pipeline of the native core (not
under `src/`): encode, enumerate candidate spans, run the forward pass and
decode entities. -/
def predictOne (m : CoreModel) (labels : List String) (text : List Char) :
    Except DecodeError (List EntityPrediction) :=
  let enc := m.encode text labels
  entityDecode text (m.raw enc) (generateSpans enc.tokenCount m.cfg.maxSpanWidth)
    labels enc.offsets m.cfg.threshold

/-- Split a list into consecutive batches of `max n 1` elements (fuel-indexed
so that it computes by kernel reduction). -/
def toBatchesAux (k : Nat) : Nat → List α → List (List α)
  | 0, _ => []
  | _, [] => []
  | fuel + 1, x :: xs => (x :: xs).take k :: toBatchesAux k fuel ((x :: xs).drop k)

/-- Modelled from the spec: the Batch Orchestrator's grouping of input texts
into runtime batches bounded by the configured max batch size (native core,
not under `src/`). -/
def toBatches (n : Nat) (l : List α) : List (List α) :=
  toBatchesAux (max n 1) l.length l

/-- Modelled from the spec: one runtime batch (native core, not under
`src/`).  Padding positions are masked out of all downstream score
computations, so each item's result depends only on its own encoding; a
per-item decode failure is isolated (bulkhead policy). -/
def processBatch (m : CoreModel) (labels : List String)
    (batch : List (List Char)) : List (Except DecodeError (List EntityPrediction)) :=
  batch.map (predictOne m labels)

/-- Modelled from the spec: `PyFastGliNER.predict_entities` (native core, not
under `src/`) — group the texts into batches, dispatch each batch, and
reassemble per-text results preserving input order. -/
def corePredictEntities (m : CoreModel) (texts : List (List Char))
    (labels : List String) : List (Except DecodeError (List EntityPrediction)) :=
  ((toBatches m.cfg.maxBatchSize texts).map (processBatch m labels)).flatten

/-- A declared permissible (subject-label, object-label) → relation mapping
(the native `PyRelationSchemaEntry`). -/
structure RelationSchemaEntry where
  relation : String
  subject_labels : List String
  object_labels : List String
deriving DecidableEq, Repr

/-- A scored relation triple over two decoded entities. -/
structure RelationPrediction where
  relation : String
  subject : EntityPrediction
  object : EntityPrediction
  score : Score
deriving DecidableEq, Repr

/-- Relation output order: score descending, ties by
`(subject.start_char, object.start_char)` ascending. -/
def relLE (a b : RelationPrediction) : Bool :=
  if a.score == b.score then
    if a.subject.start_char == b.subject.start_char then
      decide (a.object.start_char ≤ b.object.start_char)
    else decide (a.subject.start_char < b.subject.start_char)
  else decide (b.score < a.score)

/-- Modelled from the spec: the Relation Decoder of the native core (not
under `src/`).  For every ordered pair of distinct decoded entities, each
schema entry whose `subject_labels` contains the subject's label and whose
`object_labels` contains the object's label yields a candidate relation; the
candidate is emitted when its score reaches the threshold; pairs matching no
entry are skipped with no score computed. -/
def relationDecode (entities : List EntityPrediction)
    (schema : List RelationSchemaEntry)
    (relScore : EntityPrediction → EntityPrediction → String → Score)
    (threshold : Score) : List RelationPrediction :=
  sortBy relLE (entities.flatMap (fun e1 => entities.flatMap (fun e2 =>
    if e1 = e2 then []
    else schema.filterMap (fun entry =>
      if e1.label ∈ entry.subject_labels ∧ e2.label ∈ entry.object_labels then
        if threshold ≤ relScore e1 e2 entry.relation then
          some ⟨entry.relation, e1, e2, relScore e1 e2 entry.relation⟩
        else none
      else none))))

/-- Modelled from the spec: the per-item relation pipeline of the native core
(not under `src/`): decode entities, then decode relations over the finished
entity set. -/
def extractRelationsOne (m : CoreModel) (labels : List String)
    (schema : List RelationSchemaEntry) (text : List Char) :
    Except DecodeError (List RelationPrediction) :=
  match predictOne m labels text with
  | .error e => .error e
  | .ok ents => .ok (relationDecode ents schema (m.relRaw (m.encode text labels))
      m.cfg.relThreshold)

/-- Modelled from the spec: `PyFastGliNER.extract_relations` (native core,
not under `src/`), batched like entity prediction. -/
def coreExtractRelations (m : CoreModel) (texts : List (List Char))
    (labels : List String) (schema : List RelationSchemaEntry) :
    List (Except DecodeError (List RelationPrediction)) :=
  ((toBatches m.cfg.maxBatchSize texts).map
    (fun batch => batch.map (extractRelationsOne m labels schema))).flatten

/-- A Python argument that is either a single string or a list of strings
(the `Union[str, List[str]]` of `input_text`). -/
inductive PyInput where
  | single : List Char → PyInput
  | batch : List (List Char) → PyInput
deriving DecidableEq

/-- A Python return value that is either one flat per-text result or a list
of per-text results (the `Union[List[dict], List[List[dict]]]`). -/
inductive PyOut (α : Type) where
  | single : α → PyOut α
  | batch : List α → PyOut α
deriving DecidableEq

/-- A Python dict value as it appears in a relation-schema entry. -/
inductive PyVal where
  | str : String → PyVal
  | strList : List String → PyVal
deriving DecidableEq, Repr

/-- Read a `PyVal` as a string (well-typed schema entries only use `.str`
for the `relation` field). -/
def PyVal.asStr : PyVal → String
  | .str s => s
  | .strList _ => ""

/-- Read a `PyVal` as a list of strings (well-typed schema entries only use
`.strList` for the label-list fields). -/
def PyVal.asStrList : PyVal → List String
  | .strList l => l
  | .str _ => []

/-- A Python dict modelled as an association list in insertion order. -/
abbrev PyDict := List (String × PyVal)

/-- Python exceptions raised by the wrapper before the core is reached. -/
inductive PyError where
  | keyError : String → PyError
deriving DecidableEq, Repr

/-- Python `d[k]`: the first binding of `k`, or a `KeyError`. -/
def dictGet (d : PyDict) (k : String) : Except PyError PyVal :=
  match d.find? (fun kv => kv.1 == k) with
  | some kv => .ok kv.2
  | none => .error (.keyError k)

/-- Python `k in d`. -/
def hasKey (d : PyDict) (k : String) : Bool :=
  (d.find? (fun kv => kv.1 == k)).isSome

/-- The schema-entry conversion performed inside `extract_relations`:
`PyRelationSchemaEntry(relation=entry["relation"], subject_labels=entry["subject_labels"], object_labels=entry["object_labels"])`,
looking the three keys up in keyword-argument order. -/
def toSchemaEntry (d : PyDict) : Except PyError RelationSchemaEntry :=
  match dictGet d "relation" with
  | .error e => .error e
  | .ok r =>
    match dictGet d "subject_labels" with
    | .error e => .error e
    | .ok s =>
      match dictGet d "object_labels" with
      | .error e => .error e
      | .ok o => .ok ⟨r.asStr, s.asStrList, o.asStrList⟩

/-- The wrapper `FastGLiNER.predict_entities` from
`src/bindings/python/py_src/fast_gliner/__init__.py`: a single string is
wrapped into a one-element list before forwarding to the core, and in that
case `results[0]` is returned as a flat list. -/
def FastGLiNER.predict_entities (m : CoreModel) (input_text : PyInput)
    (labels : List String) : PyOut (Except DecodeError (List EntityPrediction)) :=
  match input_text with
  | .single t => .single ((corePredictEntities m [t] labels).headD (.ok []))
  | .batch ts => .batch (corePredictEntities m ts labels)

/-- The wrapper `FastGLiNER.extract_relations` from
`src/bindings/python/py_src/fast_gliner/__init__.py`: wrap a single string,
convert each schema dict to a `PyRelationSchemaEntry` (raising `KeyError` on
a missing key), then call the core.  The boolean records whether the core's
`extract_relations` was actually invoked. -/
def FastGLiNER.extract_relations (m : CoreModel) (input_text : PyInput)
    (labels : List String) (schema : List PyDict) :
    Except PyError (PyOut (Except DecodeError (List RelationPrediction))) × Bool :=
  let texts := match input_text with
    | .single t => [t]
    | .batch ts => ts
  match mapOrErr toSchemaEntry schema with
  | .error e => (.error e, false)
  | .ok entries =>
    let results := coreExtractRelations m texts labels entries
    match input_text with
    | .single _ => (.ok (.single (results.headD (.ok []))), true)
    | .batch _ => (.ok (.batch results), true)

/-- The filesystem as the wrapper observes it: existence of a path and
`Path.resolve`. -/
structure FileSystem where
  fexists : String → Bool
  resolve : String → String

/-- Python `Path` division: `model_dir / onnx_path`. -/
def pathJoin (a b : String) : String := a ++ "/" ++ b

/-- Load-time failures: the wrapper's `FileNotFoundError`, the modelled
core's `ModelLoadError`, and failures of `snapshot_download`. -/
inductive LoadError where
  | fileNotFound : String → LoadError
  | modelLoadError : String → LoadError
  | hubError : String → LoadError
deriving DecidableEq, Repr

/-- Filesystem-visible actions taken by `from_pretrained` itself (existence
checks and hub downloads), in program order. -/
inductive FsEvent where
  | existsCheck : String → FsEvent
  | hubDownload : String → List String → FsEvent
deriving DecidableEq, Repr

/-- A successfully constructed model handle (the `FastGLiNER.__init__`
state: model path, onnx path). -/
structure GlinerHandle where
  model_path : String
  onnx_path : String
deriving DecidableEq, Repr

/-- Modelled from the spec: the native `PyFastGliNER` constructor (not under
`src/`) — it fails with `ModelLoadError` if the serialized model graph file
or the sibling `gliner_config.json` is absent from the model directory. -/
def pyFastGliNERInit (fs : FileSystem) (model_path onnx_path : String) :
    Except LoadError GlinerHandle :=
  if fs.fexists (pathJoin model_path onnx_path) = false then
    .error (.modelLoadError (pathJoin model_path onnx_path))
  else if fs.fexists (pathJoin model_path "gliner_config.json") = false then
    .error (.modelLoadError (pathJoin model_path "gliner_config.json"))
  else .ok ⟨model_path, onnx_path⟩

/-- The wrapper `FastGLiNER.from_pretrained` from
`src/bindings/python/py_src/fast_gliner/__init__.py`.  `hub` stands for
`huggingface_hub.snapshot_download` (given the repo id and `allow_patterns`,
it returns a local directory or fails).  Alongside the result, the list of
filesystem events the wrapper itself performs is returned in program
order. -/
def FastGLiNER.from_pretrained (fs : FileSystem)
    (hub : String → List String → Except LoadError String)
    (model_id : String) (onnx_path : String) :
    Except LoadError GlinerHandle × List FsEvent :=
  if fs.fexists model_id = false then
    let ev := [FsEvent.existsCheck model_id,
      FsEvent.hubDownload model_id ["*.json", onnx_path]]
    match hub model_id ["*.json", onnx_path] with
    | .error e => (.error e, ev)
    | .ok dir => (pyFastGliNERInit fs dir onnx_path, ev)
  else
    if fs.fexists (pathJoin model_id onnx_path) = false then
      (.error (.fileNotFound (pathJoin model_id onnx_path)),
        [.existsCheck model_id, .existsCheck (pathJoin model_id onnx_path)])
    else
      if fs.fexists (pathJoin model_id "gliner_config.json") = false then
        (.error (.fileNotFound (pathJoin model_id "gliner_config.json")),
          [.existsCheck model_id, .existsCheck (pathJoin model_id onnx_path),
            .existsCheck (pathJoin model_id "gliner_config.json")])
      else
        (pyFastGliNERInit fs (fs.resolve model_id) onnx_path,
          [.existsCheck model_id, .existsCheck (pathJoin model_id onnx_path),
            .existsCheck (pathJoin model_id "gliner_config.json")])

/-- Well-formedness of a token-to-character offset table for a text of
length `textLen`: each token covers a nonempty character range inside the
text, and token start offsets are monotone in token order. -/
def wfOffsets (offsets : List (Nat × Nat)) (textLen : Nat) : Prop :=
  (∀ p ∈ offsets, p.1 < p.2 ∧ p.2 ≤ textLen) ∧
  offsets.Pairwise (fun p q => p.1 ≤ q.1)

theorem mem_insertBy (le : α → α → Bool) (a x : α) (l : List α) :
    x ∈ insertBy le a l ↔ x = a ∨ x ∈ l := by
  induction l with
  | nil => simp [insertBy]
  | cons b bs ih =>
    by_cases h : le a b
    · simp [insertBy, h]
    · simp [insertBy, h, ih]
      tauto

theorem mem_sortBy (le : α → α → Bool) (x : α) (l : List α) :
    x ∈ sortBy le l ↔ x ∈ l := by
  induction l with
  | nil => simp [sortBy]
  | cons b bs ih => simp [sortBy, mem_insertBy, ih]

theorem mapOrErr_ok_mem {f : α → Except ε β} :
    ∀ {l : List α} {l2 : List β}, mapOrErr f l = .ok l2 →
      ∀ y ∈ l2, ∃ x ∈ l, f x = .ok y := by
  intro l
  induction l with
  | nil =>
    intro l2 h y hy
    simp [mapOrErr] at h
    subst h
    simp at hy
  | cons a as ih =>
    intro l2 h y hy
    cases hfa : f a with
    | error e => simp [mapOrErr, hfa] at h
    | ok b =>
      cases hrest : mapOrErr f as with
      | error e => simp [mapOrErr, hfa, hrest] at h
      | ok bs =>
        simp [mapOrErr, hfa, hrest] at h
        subst h
        rcases List.mem_cons.mp hy with hy | hy
        · exact ⟨a, by simp, hy ▸ hfa⟩
        · obtain ⟨x, hx, hfx⟩ := ih hrest y hy
          exact ⟨x, by simp [hx], hfx⟩

theorem mapOrErr_error_of_mem {f : α → Except ε β} :
    ∀ {l : List α} {x : α}, x ∈ l → (∃ e, f x = .error e) →
      ∃ d e, d ∈ l ∧ f d = .error e ∧ mapOrErr f l = .error e := by
  intro l
  induction l with
  | nil => intro x hx _; simp at hx
  | cons a as ih =>
    intro x hx hex
    cases hfa : f a with
    | error e => exact ⟨a, e, by simp, hfa, by simp [mapOrErr, hfa]⟩
    | ok b =>
      rcases List.mem_cons.mp hx with hx | hx
      · obtain ⟨e, he⟩ := hex
        rw [hx] at he
        rw [he] at hfa
        cases hfa
      · obtain ⟨d, e, hd, hfd, herr⟩ := ih hx hex
        exact ⟨d, e, by simp [hd], hfd, by simp [mapOrErr, hfa, herr]⟩

theorem greedySelect_subset {y : EntityPrediction} :
    ∀ {l acc : List EntityPrediction}, y ∈ greedySelect acc l →
      y ∈ acc ∨ y ∈ l := by
  intro l
  induction l with
  | nil =>
    intro acc h
    simp [greedySelect] at h
    exact Or.inl h
  | cons c rest ih =>
    intro acc h
    unfold greedySelect at h
    by_cases hov : acc.any (fun e => charOverlapB e c)
    · rw [if_pos hov] at h
      rcases ih h with h | h
      · exact Or.inl h
      · exact Or.inr (by simp [h])
    · rw [if_neg hov] at h
      rcases ih h with h | h
      · rcases List.mem_cons.mp h with h | h
        · exact Or.inr (by simp [h])
        · exact Or.inl h
      · exact Or.inr (by simp [h])

theorem charOverlapB_symm (a b : EntityPrediction) :
    charOverlapB a b = charOverlapB b a := by
  simp [charOverlapB, Bool.and_comm]

theorem greedySelect_pairwise :
    ∀ {l acc : List EntityPrediction},
      acc.Pairwise (fun a b => charOverlapB a b = false) →
      (greedySelect acc l).Pairwise (fun a b => charOverlapB a b = false) := by
  intro l
  induction l with
  | nil =>
    intro acc hacc
    simp only [greedySelect]
    rw [List.pairwise_reverse]
    exact hacc.imp (fun h => by rw [charOverlapB_symm]; exact h)
  | cons c rest ih =>
    intro acc hacc
    unfold greedySelect
    by_cases hov : acc.any (fun e => charOverlapB e c)
    · rw [if_pos hov]
      exact ih hacc
    · rw [if_neg hov]
      refine ih (List.pairwise_cons.mpr ⟨?_, hacc⟩)
      intro e he
      have hfalse : acc.any (fun x => charOverlapB x c) = false := by
        simpa using hov
      have h2 := List.any_eq_false.mp hfalse e he
      rw [charOverlapB_symm]
      simpa using h2

theorem generateSpans_mem {tc w : Nat} {sp : TokenSpan}
    (h : sp ∈ generateSpans tc w) :
    sp.start_token < sp.end_token ∧ sp.end_token ≤ tc := by
  unfold generateSpans at h
  rw [List.mem_flatMap] at h
  obtain ⟨i, _, h⟩ := h
  rw [List.mem_filterMap] at h
  obtain ⟨w0, _, h⟩ := h
  by_cases hc : i + (w0 + 1) ≤ tc
  · rw [if_pos hc, Option.some_inj] at h
    subst h
    constructor
    · show i < i + (w0 + 1)
      omega
    · show i + (w0 + 1) ≤ tc
      omega
  · rw [if_neg hc] at h
    cases h

theorem mem_decodeCands {raw : TokenSpan → Nat → Score} {spans : List TokenSpan}
    {labels : List String} {threshold : Score} {c : Candidate}
    (h : c ∈ decodeCands raw spans labels threshold) :
    c.span ∈ spans ∧ threshold ≤ c.score := by
  unfold decodeCands at h
  rw [mem_sortBy] at h
  obtain ⟨hmem, hthr⟩ := List.mem_filter.mp h
  refine ⟨?_, of_decide_eq_true hthr⟩
  rw [List.mem_flatMap] at hmem
  obtain ⟨sp, hsp, hmem⟩ := hmem
  rw [List.mem_map] at hmem
  obtain ⟨li, _, hc⟩ := hmem
  rw [← hc]
  exact hsp

theorem entityDecode_ok {text : List Char} {raw : TokenSpan → Nat → Score}
    {spans : List TokenSpan} {labels : List String}
    {offsets : List (Nat × Nat)} {threshold : Score}
    {preds : List EntityPrediction}
    (h : entityDecode text raw spans labels offsets threshold = .ok preds) :
    ∃ mapped, mapOrErr (mapCandidate text labels offsets)
        (decodeCands raw spans labels threshold) = .ok mapped ∧
      preds = greedySelect [] mapped := by
  unfold entityDecode at h
  cases hm : mapOrErr (mapCandidate text labels offsets)
      (decodeCands raw spans labels threshold) with
  | error e => rw [hm] at h; cases h
  | ok mapped =>
    rw [hm] at h
    exact ⟨mapped, rfl, (Except.ok.injEq _ _ ▸ h).symm⟩

theorem mapCandidate_ok {text : List Char} {labels : List String}
    {offsets : List (Nat × Nat)} {c : Candidate} {e : EntityPrediction}
    (h : mapCandidate text labels offsets c = .ok e) :
    ∃ lab so eo, labels[c.labelIdx]? = some lab ∧
      offsets[c.span.start_token]? = some so ∧
      offsets[c.span.end_token - 1]? = some eo ∧
      e.label = lab ∧ e.start_char = so.1 ∧ e.end_char = eo.2 := by
  unfold mapCandidate at h
  cases h1 : labels[c.labelIdx]? with
  | none => rw [h1] at h; cases h
  | some lab =>
    cases h2 : offsets[c.span.start_token]? with
    | none => rw [h1, h2] at h; cases h
    | some so =>
      cases h3 : offsets[c.span.end_token - 1]? with
      | none => rw [h1, h2, h3] at h; cases h
      | some eo =>
        rw [h1, h2, h3] at h
        have he := (Except.ok.injEq _ _ ▸ h)
        exact ⟨lab, so, eo, rfl, rfl, rfl, by rw [← he], by rw [← he], by rw [← he]⟩

theorem wfOffsets_span {offsets : List (Nat × Nat)} {len s t : Nat}
    {so eo : Nat × Nat} (hwf : wfOffsets offsets len) (hst : s ≤ t)
    (hs : offsets[s]? = some so) (ht : offsets[t]? = some eo) :
    so.1 < eo.2 ∧ eo.2 ≤ len := by
  obtain ⟨hb, hmono⟩ := hwf
  have h2 := hb eo (List.getElem?_mem ht)
  rcases Nat.lt_or_ge s t with hlt | hge
  · rw [List.getElem?_eq_some] at hs ht
    obtain ⟨hsl, hs⟩ := hs
    obtain ⟨htl, ht⟩ := ht
    have hmn := List.pairwise_iff_getElem.mp hmono s t hsl htl hlt
    rw [hs, ht] at hmn
    omega
  · have heq : s = t := Nat.le_antisymm hst hge
    subst heq
    rw [hs, Option.some_inj] at ht
    subst ht
    omega

theorem toBatchesAux_flatten {α : Type} {k : Nat} (hk : 1 ≤ k) :
    ∀ (fuel : Nat) (l : List α), l.length ≤ fuel →
      (toBatchesAux k fuel l).flatten = l := by
  intro fuel
  induction fuel with
  | zero =>
    intro l hl
    cases l with
    | nil => simp [toBatchesAux]
    | cons x xs => simp at hl
  | succ n ih =>
    intro l hl
    cases l with
    | nil => simp [toBatchesAux]
    | cons x xs =>
      show (List.take k (x :: xs) :: toBatchesAux k n (List.drop k (x :: xs))).flatten
        = x :: xs
      rw [List.flatten_cons, ih (List.drop k (x :: xs)) (by
        rw [List.length_drop]
        simp only [List.length_cons] at hl ⊢
        omega)]
      exact List.take_append_drop k (x :: xs)

theorem toBatches_flatten {α : Type} (n : Nat) (l : List α) :
    (toBatches n l).flatten = l :=
  toBatchesAux_flatten (Nat.le_max_right n 1) l.length l (Nat.le_refl _)

theorem batched_map_flatten {α β : Type} (n : Nat) (f : α → β) (l : List α) :
    ((toBatches n l).map (List.map f)).flatten = l.map f := by
  rw [← List.map_flatten, toBatches_flatten]

theorem corePredictEntities_eq_map (m : CoreModel) (texts : List (List Char))
    (labels : List String) :
    corePredictEntities m texts labels = texts.map (predictOne m labels) := by
  unfold corePredictEntities
  have : (processBatch m labels) = List.map (predictOne m labels) := by
    funext batch
    rfl
  rw [this, batched_map_flatten]

theorem coreExtractRelations_eq_map (m : CoreModel) (texts : List (List Char))
    (labels : List String) (schema : List RelationSchemaEntry) :
    coreExtractRelations m texts labels schema
      = texts.map (extractRelationsOne m labels schema) := by
  unfold coreExtractRelations
  have : (fun batch : List (List Char) =>
      batch.map (extractRelationsOne m labels schema))
        = List.map (extractRelationsOne m labels schema) := by
    funext batch
    rfl
  rw [this, batched_map_flatten]

theorem toSchemaEntry_error {d : PyDict} {e : PyError}
    (h : toSchemaEntry d = .error e) : ∃ k, e = .keyError k := by
  unfold toSchemaEntry at h
  cases hr : dictGet d "relation" with
  | error er =>
    cases er with
    | keyError k =>
      simp [hr] at h
      exact ⟨k, by rw [← h]⟩
  | ok r =>
    cases hs : dictGet d "subject_labels" with
    | error es =>
      cases es with
      | keyError k =>
        simp [hr, hs] at h
        exact ⟨k, by rw [← h]⟩
    | ok s =>
      cases ho : dictGet d "object_labels" with
      | error eo =>
        cases eo with
        | keyError k =>
          simp [hr, hs, ho] at h
          exact ⟨k, by rw [← h]⟩
      | ok o => simp [hr, hs, ho] at h

theorem toSchemaEntry_error_of_missing {d : PyDict}
    (h : hasKey d "relation" = false ∨ hasKey d "subject_labels" = false ∨
      hasKey d "object_labels" = false) :
    ∃ e, toSchemaEntry d = .error e := by
  have key_err : ∀ k : String, hasKey d k = false →
      dictGet d k = .error (.keyError k) := by
    intro k hk
    unfold hasKey at hk
    unfold dictGet
    cases hfind : d.find? (fun kv => kv.1 == k) with
    | none => rfl
    | some kv => rw [hfind] at hk; simp at hk
  unfold toSchemaEntry
  rcases h with h | h | h
  · exact ⟨.keyError "relation", by simp [key_err _ h]⟩
  · cases hr : dictGet d "relation" with
    | error er => exact ⟨er, by simp [hr]⟩
    | ok r => exact ⟨.keyError "subject_labels", by simp [hr, key_err _ h]⟩
  · cases hr : dictGet d "relation" with
    | error er => exact ⟨er, by simp [hr]⟩
    | ok r =>
      cases hs : dictGet d "subject_labels" with
      | error es => exact ⟨es, by simp [hr, hs]⟩
      | ok s => exact ⟨.keyError "object_labels", by simp [hr, hs, key_err _ h]⟩

/-- A tiny concrete tokenizer/encoder for witnesses: one token per character,
token `i` covering the character range `[i, i+1)`. -/
def encodeW (t : List Char) (_labels : List String) : EncodedInput :=
  ⟨t.length, (List.range t.length).map (fun i => (i, i + 1)), false⟩

/-- A tiny concrete core model for witnesses: every candidate scores 1, all
thresholds 0, spans of width at most 1, batches of size 1. -/
def modelW : CoreModel where
  cfg := { maxSpanWidth := 1, threshold := 0, relThreshold := 0, maxBatchSize := 1 }
  encode := encodeW
  raw := fun _ _ _ => 1
  relRaw := fun _ _ _ _ => 1

/-- Concrete witness input text. -/
def textW : List Char := ['a', 'b']

/-- First entity decoded from `textW` by `modelW`. -/
def eW1 : EntityPrediction := ⟨['a'], "L", 1, 0, 1⟩

/-- Second entity decoded from `textW` by `modelW`. -/
def eW2 : EntityPrediction := ⟨['b'], "L", 1, 1, 2⟩

/-- The entity predictions of `modelW` on `textW`. -/
def predsW : List EntityPrediction := [eW1, eW2]

/-- C1: for every valid call `predict_entities(text, labels)` (modelled by
the per-item pipeline `predictOne` with a well-formed offset table), every
entity prediction in the returned list satisfies
`0 <= start_char < end_char <= len(text)` and its label is an element of the
supplied labels list. -/
theorem C1_entity_bounds_and_labels (m : CoreModel) (labels : List String)
    (text : List Char) (preds : List EntityPrediction)
    (hwf : wfOffsets (m.encode text labels).offsets text.length)
    (hok : predictOne m labels text = .ok preds) :
    ∀ e ∈ preds, 0 ≤ e.start_char ∧ e.start_char < e.end_char ∧
      e.end_char ≤ text.length ∧ e.label ∈ labels := by
  intro e he
  replace hok : entityDecode text (m.raw (m.encode text labels))
      (generateSpans (m.encode text labels).tokenCount m.cfg.maxSpanWidth)
      labels (m.encode text labels).offsets m.cfg.threshold = .ok preds := hok
  obtain ⟨mapped, hmap, hpred⟩ := entityDecode_ok hok
  rw [hpred] at he
  have hmem : e ∈ mapped := by
    rcases greedySelect_subset he with h | h
    · simp at h
    · exact h
  obtain ⟨c, hc, hce⟩ := mapOrErr_ok_mem hmap e hmem
  obtain ⟨hcs, _⟩ := mem_decodeCands hc
  have hspan := generateSpans_mem hcs
  obtain ⟨lab, so, eo, hlab, hso, heo, hlabStr, hes, hee⟩ := mapCandidate_ok hce
  have hst : c.span.start_token ≤ c.span.end_token - 1 := by omega
  have hb := wfOffsets_span hwf hst hso heo
  refine ⟨Nat.zero_le _, ?_, ?_, ?_⟩
  · rw [hes, hee]
    exact hb.1
  · rw [hee]
    exact hb.2
  · rw [hlabStr]
    exact List.getElem?_mem hlab

/-- Witness for C1: the concrete model `modelW` on `textW` returns entity
`eW1`, which satisfies the bounds and label membership. -/
theorem C1_entity_bounds_and_labels_witness :
    0 ≤ eW1.start_char ∧ eW1.start_char < eW1.end_char ∧
      eW1.end_char ≤ textW.length ∧ eW1.label ∈ ["L"] :=
  C1_entity_bounds_and_labels modelW ["L"] textW predsW
    (by unfold wfOffsets; exact ⟨by decide, by decide⟩) rfl eW1 (by simp [predsW])

/-- C2: under the default strict non-overlap policy, no two entity
predictions returned for one input overlap in character range. -/
theorem C2_no_overlap (m : CoreModel) (labels : List String) (text : List Char)
    (preds : List EntityPrediction) (hok : predictOne m labels text = .ok preds) :
    preds.Pairwise (fun a b => charOverlapB a b = false) := by
  replace hok : entityDecode text (m.raw (m.encode text labels))
      (generateSpans (m.encode text labels).tokenCount m.cfg.maxSpanWidth)
      labels (m.encode text labels).offsets m.cfg.threshold = .ok preds := hok
  obtain ⟨mapped, _, hpred⟩ := entityDecode_ok hok
  rw [hpred]
  exact greedySelect_pairwise List.Pairwise.nil

/-- Witness for C2: the two entities decoded by `modelW` on `textW` are
pairwise non-overlapping. -/
theorem C2_no_overlap_witness :
    predsW.Pairwise (fun a b => charOverlapB a b = false) :=
  C2_no_overlap modelW ["L"] textW predsW rfl

/-- The concrete witness relation schema. -/
def schemaW : List RelationSchemaEntry := [⟨"rel", ["L"], ["L"]⟩]

/-- The relation predictions of `modelW` on `textW` under `schemaW`. -/
def relsW : List RelationPrediction := [⟨"rel", eW1, eW2, 1⟩, ⟨"rel", eW2, eW1, 1⟩]

/-- C3: every relation returned by the relation pipeline has a
(subject.label, object.label) pair admitted by at least one supplied schema
entry (so an ordered entity pair whose label pair matches no entry can never
contribute a relation), and its relation name is that entry's name. -/
theorem C3_relations_match_schema (m : CoreModel) (labels : List String)
    (schema : List RelationSchemaEntry) (text : List Char)
    (rels : List RelationPrediction)
    (hok : extractRelationsOne m labels schema text = .ok rels) :
    ∀ r ∈ rels, ∃ entry ∈ schema, r.subject.label ∈ entry.subject_labels ∧
      r.object.label ∈ entry.object_labels ∧ r.relation = entry.relation := by
  intro r hr
  unfold extractRelationsOne at hok
  cases hp : predictOne m labels text with
  | error e => rw [hp] at hok; cases hok
  | ok ents =>
    rw [hp] at hok
    have hrels := (Except.ok.injEq _ _ ▸ hok)
    rw [← hrels] at hr
    unfold relationDecode at hr
    rw [mem_sortBy] at hr
    rw [List.mem_flatMap] at hr
    obtain ⟨e1, _, hr⟩ := hr
    rw [List.mem_flatMap] at hr
    obtain ⟨e2, _, hr⟩ := hr
    by_cases h12 : e1 = e2
    · rw [if_pos h12] at hr
      cases hr
    · rw [if_neg h12] at hr
      rw [List.mem_filterMap] at hr
      obtain ⟨entry, hentry, hf⟩ := hr
      by_cases hcond : e1.label ∈ entry.subject_labels ∧ e2.label ∈ entry.object_labels
      · rw [if_pos hcond] at hf
        by_cases hthr : m.cfg.relThreshold ≤ m.relRaw (m.encode text labels) e1 e2 entry.relation
        · rw [if_pos hthr, Option.some_inj] at hf
          refine ⟨entry, hentry, ?_, ?_, ?_⟩
          · rw [← hf]
            exact hcond.1
          · rw [← hf]
            exact hcond.2
          · rw [← hf]
        · rw [if_neg hthr] at hf
          cases hf
      · rw [if_neg hcond] at hf
        cases hf

/-- Witness for C3: the first relation returned by `modelW` on `textW` under
`schemaW` matches a schema entry. -/
theorem C3_relations_match_schema_witness :
    ∃ entry ∈ schemaW,
      (RelationPrediction.mk "rel" eW1 eW2 1).subject.label ∈ entry.subject_labels ∧
      (RelationPrediction.mk "rel" eW1 eW2 1).object.label ∈ entry.object_labels ∧
      (RelationPrediction.mk "rel" eW1 eW2 1).relation = entry.relation :=
  C3_relations_match_schema modelW ["L"] schemaW textW relsW rfl
    ⟨"rel", eW1, eW2, 1⟩ (by simp [relsW])

/-- C4: batched prediction returns exactly one result per input text, in
input order: the wrapper on a list of texts returns the per-text pipeline
mapped over the texts, and indexing the output agrees with indexing the
input. -/
theorem C4_one_result_per_text_in_order (m : CoreModel)
    (texts : List (List Char)) (labels : List String) :
    FastGLiNER.predict_entities m (.batch texts) labels
        = .batch (texts.map (predictOne m labels)) ∧
      (texts.map (predictOne m labels)).length = texts.length ∧
      ∀ i : Nat, (texts.map (predictOne m labels))[i]?
        = (texts[i]?).map (predictOne m labels) := by
  refine ⟨?_, List.length_map _ _, ?_⟩
  · show PyOut.batch (corePredictEntities m texts labels)
      = PyOut.batch (texts.map (predictOne m labels))
    rw [corePredictEntities_eq_map]
  · intro i
    simp

/-- C5: batching invariance — predicting on the two-element batch `[a, b]`
returns exactly the results of predicting on `[a]` and on `[b]`
separately. -/
theorem C5_batching_invariance (m : CoreModel) (labels : List String)
    (a b : List Char) :
    ∃ ra rb, FastGLiNER.predict_entities m (.batch [a, b]) labels = .batch [ra, rb] ∧
      FastGLiNER.predict_entities m (.batch [a]) labels = .batch [ra] ∧
      FastGLiNER.predict_entities m (.batch [b]) labels = .batch [rb] := by
  refine ⟨predictOne m labels a, predictOne m labels b, ?_, ?_, ?_⟩
  · show PyOut.batch (corePredictEntities m [a, b] labels)
      = PyOut.batch [predictOne m labels a, predictOne m labels b]
    rw [corePredictEntities_eq_map]
    rfl
  · show PyOut.batch (corePredictEntities m [a] labels)
      = PyOut.batch [predictOne m labels a]
    rw [corePredictEntities_eq_map]
    rfl
  · show PyOut.batch (corePredictEntities m [b] labels)
      = PyOut.batch [predictOne m labels b]
    rw [corePredictEntities_eq_map]
    rfl

/-- C6: `predict_entities` is deterministic — two calls with identical
(text, labels) arguments return identical results. -/
theorem C6_deterministic (m : CoreModel) (input : PyInput) (labels : List String)
    (r1 r2 : PyOut (Except DecodeError (List EntityPrediction)))
    (h1 : r1 = FastGLiNER.predict_entities m input labels)
    (h2 : r2 = FastGLiNER.predict_entities m input labels) : r1 = r2 := by
  rw [h1, h2]

/-- Witness for C6: two identical concrete calls agree. -/
theorem C6_deterministic_witness :
    FastGLiNER.predict_entities modelW (.single textW) ["L"]
      = FastGLiNER.predict_entities modelW (.single textW) ["L"] :=
  C6_deterministic modelW (.single textW) ["L"] _ _ rfl rfl

/-- Whether a load error is the core's `ModelLoadError`. -/
def LoadError.isModelLoad : LoadError → Bool
  | .modelLoadError _ => true
  | .fileNotFound _ => false
  | .hubError _ => false

/-- Whether a load result failed with the core's `ModelLoadError`. -/
def resultIsModelLoadErr (r : Except LoadError GlinerHandle) : Bool :=
  match r with
  | .error e => e.isModelLoad
  | .ok _ => false

/-- A concrete witness filesystem: only the path "m" exists. -/
def fsW : FileSystem := ⟨fun s => s == "m", fun s => s⟩

/-- A concrete witness hub that always downloads into directory "d". -/
def hubW : String → List String → Except LoadError String := fun _ _ => .ok "d"

/-- Counterexample to C7 as stated: with the local model directory "m"
present but the ONNX model file absent, loading fails — but with the
wrapper's `FileNotFoundError`, not with `ModelLoadError`. -/
theorem C7_counterexample :
    fsW.fexists "m" = true ∧
    fsW.fexists (pathJoin "m" "onnx/model.onnx") = false ∧
    (FastGLiNER.from_pretrained fsW hubW "m" "onnx/model.onnx").1
      = .error (.fileNotFound "m/onnx/model.onnx") ∧
    resultIsModelLoadErr (FastGLiNER.from_pretrained fsW hubW "m" "onnx/model.onnx").1
      = false :=
  ⟨rfl, rfl, rfl, rfl⟩

/-- C7 (amended): loading fails at initialization with no retry and no
partial result whenever the serialized model graph file or the sibling
configuration file is absent from the model directory that is used; for an
existing local `model_id` the wrapper itself raises `FileNotFoundError`,
while for a downloaded model the failure is the core's `ModelLoadError`. -/
theorem C7_load_fails_on_missing_assets (fs : FileSystem)
    (hub : String → List String → Except LoadError String)
    (model_id onnx_path : String) :
    (fs.fexists model_id = true →
      (fs.fexists (pathJoin model_id onnx_path) = false ∨
        fs.fexists (pathJoin model_id "gliner_config.json") = false) →
      ∃ p, (FastGLiNER.from_pretrained fs hub model_id onnx_path).1
        = .error (.fileNotFound p)) ∧
    (fs.fexists model_id = false →
      ∀ d, hub model_id ["*.json", onnx_path] = .ok d →
        (fs.fexists (pathJoin d onnx_path) = false ∨
          fs.fexists (pathJoin d "gliner_config.json") = false) →
        ∃ p, (FastGLiNER.from_pretrained fs hub model_id onnx_path).1
          = .error (.modelLoadError p)) := by
  constructor
  · intro hex hmiss
    unfold FastGLiNER.from_pretrained
    rw [hex]
    simp only [Bool.true_eq_false, if_false]
    cases hmf : fs.fexists (pathJoin model_id onnx_path) with
    | false => exact ⟨pathJoin model_id onnx_path, by rw [if_pos rfl]⟩
    | true =>
      rw [if_neg (by simp)]
      rcases hmiss with hmiss | hmiss
      · rw [hmf] at hmiss
        cases hmiss
      · rw [hmiss]
        exact ⟨pathJoin model_id "gliner_config.json", by rw [if_pos rfl]⟩
  · intro hex d hd hmiss
    have hinit : ∃ p, pyFastGliNERInit fs d onnx_path = .error (.modelLoadError p) := by
      unfold pyFastGliNERInit
      cases hmf : fs.fexists (pathJoin d onnx_path) with
      | false => exact ⟨pathJoin d onnx_path, by rw [if_pos rfl]⟩
      | true =>
        rw [if_neg (by simp)]
        rcases hmiss with hmiss | hmiss
        · rw [hmf] at hmiss
          cases hmiss
        · rw [hmiss]
          exact ⟨pathJoin d "gliner_config.json", by rw [if_pos rfl]⟩
    obtain ⟨p, hp⟩ := hinit
    refine ⟨p, ?_⟩
    unfold FastGLiNER.from_pretrained
    rw [hex, if_pos rfl, hd]
    exact hp

/-- Witness for C7 (amended): on the concrete filesystem `fsW` the local
branch fails with `FileNotFoundError`. -/
theorem C7_load_fails_on_missing_assets_witness :
    ∃ p, (FastGLiNER.from_pretrained fsW hubW "m" "onnx/model.onnx").1
      = .error (.fileNotFound p) :=
  (C7_load_fails_on_missing_assets fsW hubW "m" "onnx/model.onnx").1 rfl (Or.inl rfl)

/-- A well-formed concrete schema dict list for witnesses. -/
def schemaDictW : List PyDict :=
  [[("relation", PyVal.str "rel"), ("subject_labels", PyVal.strList ["L"]),
    ("object_labels", PyVal.strList ["L"])]]

/-- A concrete schema dict list whose only entry lacks `subject_labels` and
`object_labels`. -/
def badSchemaW : List PyDict := [[("relation", PyVal.str "rel")]]

/-- C8: a single-string `input_text` is wrapped into a one-element list
before forwarding, and the first (and only) per-text result is returned as a
flat result (the `single` form), not a one-element outer list — for both
`predict_entities` and `extract_relations`. -/
theorem C8_single_input_flat_result (m : CoreModel) (t : List Char)
    (labels : List String) (schema : List PyDict)
    (entries : List RelationSchemaEntry)
    (hconv : mapOrErr toSchemaEntry schema = .ok entries) :
    FastGLiNER.predict_entities m (.single t) labels
        = .single (predictOne m labels t) ∧
      FastGLiNER.extract_relations m (.single t) labels schema
        = (.ok (.single (extractRelationsOne m labels entries t)), true) := by
  constructor
  · show PyOut.single ((corePredictEntities m [t] labels).headD (.ok []))
      = PyOut.single (predictOne m labels t)
    rw [corePredictEntities_eq_map]
    rfl
  · unfold FastGLiNER.extract_relations
    rw [hconv]
    show (Except.ok (PyOut.single
        ((coreExtractRelations m [t] labels entries).headD (.ok []))), true)
      = (Except.ok (PyOut.single (extractRelationsOne m labels entries t)), true)
    rw [coreExtractRelations_eq_map]
    rfl

/-- Witness for C8: the concrete single-text call returns the flat per-text
result. -/
theorem C8_single_input_flat_result_witness :
    FastGLiNER.predict_entities modelW (.single textW) ["L"]
        = .single (predictOne modelW ["L"] textW) ∧
      FastGLiNER.extract_relations modelW (.single textW) ["L"] schemaDictW
        = (.ok (.single (extractRelationsOne modelW ["L"] schemaW textW)), true) :=
  C8_single_input_flat_result modelW textW ["L"] schemaDictW schemaW rfl

/-- C9: if some schema entry dict lacks one of the keys `relation`,
`subject_labels` or `object_labels`, `extract_relations` raises `KeyError`
during schema conversion, and the core's inference is never invoked (the
invocation flag is `false`). -/
theorem C9_missing_schema_key_raises (m : CoreModel) (input : PyInput)
    (labels : List String) (schema : List PyDict) (d : PyDict) (hd : d ∈ schema)
    (hmiss : hasKey d "relation" = false ∨ hasKey d "subject_labels" = false ∨
      hasKey d "object_labels" = false) :
    ∃ k, FastGLiNER.extract_relations m input labels schema
      = (.error (.keyError k), false) := by
  obtain ⟨e, he⟩ := toSchemaEntry_error_of_missing hmiss
  obtain ⟨d2, e2, hd2, hfd2, herr⟩ := mapOrErr_error_of_mem hd ⟨e, he⟩
  obtain ⟨k, hk⟩ := toSchemaEntry_error hfd2
  subst hk
  refine ⟨k, ?_⟩
  unfold FastGLiNER.extract_relations
  rw [herr]

/-- Witness for C9: the concrete schema with a missing `subject_labels` key
makes the concrete call fail with a `KeyError` without invoking the core. -/
theorem C9_missing_schema_key_raises_witness :
    ∃ k, FastGLiNER.extract_relations modelW (.single textW) ["L"] badSchemaW
      = (.error (.keyError k), false) :=
  C9_missing_schema_key_raises modelW (.single textW) ["L"] badSchemaW
    [("relation", PyVal.str "rel")] (by simp [badSchemaW]) (Or.inr (Or.inl rfl))

/-- C10: `from_pretrained` checks for the ONNX model file and for
`gliner_config.json` only when `model_id` is an existing local path; when
`model_id` is not an existing path it performs exactly one
`snapshot_download` with `allow_patterns` restricted to
`["*.json", onnx_path]` and constructs the instance without performing
either local existence check itself. -/
theorem C10_local_only_asset_checks (fs : FileSystem)
    (hub : String → List String → Except LoadError String)
    (model_id onnx_path : String) :
    (fs.fexists model_id = false →
      (FastGLiNER.from_pretrained fs hub model_id onnx_path).2
          = [.existsCheck model_id, .hubDownload model_id ["*.json", onnx_path]] ∧
        (FastGLiNER.from_pretrained fs hub model_id onnx_path).1
          = match hub model_id ["*.json", onnx_path] with
            | .error e => .error e
            | .ok dir => pyFastGliNERInit fs dir onnx_path) ∧
    (fs.fexists model_id = true →
      FsEvent.existsCheck (pathJoin model_id onnx_path)
          ∈ (FastGLiNER.from_pretrained fs hub model_id onnx_path).2 ∧
        (fs.fexists (pathJoin model_id onnx_path) = true →
          FsEvent.existsCheck (pathJoin model_id "gliner_config.json")
            ∈ (FastGLiNER.from_pretrained fs hub model_id onnx_path).2)) := by
  constructor
  · intro hex
    unfold FastGLiNER.from_pretrained
    rw [hex, if_pos rfl]
    cases hd : hub model_id ["*.json", onnx_path] with
    | error e => exact ⟨rfl, rfl⟩
    | ok dir => exact ⟨rfl, rfl⟩
  · intro hex
    unfold FastGLiNER.from_pretrained
    rw [hex, if_neg (by simp)]
    cases hmf : fs.fexists (pathJoin model_id onnx_path) with
    | false =>
      rw [if_pos rfl]
      exact ⟨by simp, fun h => by simp at h⟩
    | true =>
      rw [if_neg (by simp)]
      cases hcf : fs.fexists (pathJoin model_id "gliner_config.json") with
      | false =>
        rw [if_pos rfl]
        exact ⟨by simp, fun _ => by simp⟩
      | true =>
        rw [if_neg (by simp)]
        exact ⟨by simp, fun _ => by simp⟩

/-- Witness for C10: with a non-existing `model_id`, the wrapper's own
filesystem actions are exactly the initial existence check and the hub
download with the restricted patterns. -/
theorem C10_local_only_asset_checks_witness :
    (FastGLiNER.from_pretrained fsW hubW "x" "onnx/model.onnx").2
      = [.existsCheck "x", .hubDownload "x" ["*.json", "onnx/model.onnx"]] :=
  ((C10_local_only_asset_checks fsW hubW "x" "onnx/model.onnx").1 rfl).1
